import Mathlib

/-!
Verification of the KingDB server bootstrap (`src/network/server_main.cc`).

The bootstrap is modelled as an executable event-trace semantics: `mainModel`
maps an abstract environment (command-line arguments, filesystem, fork/setsid
outcomes, server stop stream) to the list of observable events the process
performs, in order.  Pure fragments of the C++ source (the enum validation
chain, `daemonize`, the poll loop, the configfile probing) are translated
directly; the parts of the repository that are only declared here
(ConfigParser, Logger, DatabaseOptions defaults) are modelled from the spec
and marked as such in their doc comments.
-/

/-- A parsed `name=value` assignment, as produced by the config parser from a
command-line token or a config-file line.  Modelled from the spec: the
tokenization performed by `ConfigParser` is not part of the given source, so
command lines and files are given to the model already tokenized. -/
abbrev Assign := String × String

/-- A registered parameter declaration: name, default value, mandatory flag.
Mirrors `kdb::Parameter` as used by `ConfigParser::AddParameter` (declared in
`util/config_parser.h`, not part of the given source; modelled from the spec:
"name, default, mandatory flag, help text, bound destination"). -/
structure Param where
  name : String
  defVal : String
  mandatory : Bool
deriving DecidableEq, Repr

/-- Observable events of a bootstrap run, in program order. -/
inductive Event where
  | stderrMsg (s : String)
  | stdoutMsg (s : String)
  | exited (code : Int)
  | statP (path : String)
  | versionBanner (vs : List (List Nat))
  | helpUsage
  | markdownDoc
  | fileParsed (path : String)
  | cliParsed
  | missingReported (names : List String)
  | logLevelSet (s : String)
  | logTargetSet (s : String)
  | limitRaised
  | signalInstalled (sig : String)
  | getcwdCached
  | forked (which : Nat)
  | parentExited
  | sessionCreated
  | umaskSet
  | chdirRoot
  | serverStarted (db : String)
  | checked (b : Bool)
  | slept (ms : Nat)
  | serverStopped
  | returned (code : Int)
deriving DecidableEq, Repr

/-- The abstract environment a bootstrap run executes in: the command line,
the filesystem, the registrations performed by the opaque option groups, the
library version constants, the outcomes of the process-control syscalls, and
the stop-condition streams sampled by the poll loop. -/
structure Env where
  args : List String
  cliAssigns : List Assign
  fsExists : String → Bool
  fileAssigns : String → List Assign
  extraParams : List Param
  engineVersion : Nat × Nat × Nat
  dataFormatVersion : Nat × Nat
  fork1Fails : Bool
  setsidFails : Bool
  fork2Fails : Bool
  chdirFails : Bool
  sigStop : Nat → Bool
  srvStop : Nat → Bool
  fuel : Nat

/-- Apply one assignment to a resolution store: the named parameter now
resolves to the assigned value. -/
def applyAssign (st : String → String) (a : Assign) : String → String :=
  fun n => if n = a.1 then a.2 else st n

/-- Apply a list of assignments in order; a later assignment to the same name
overwrites an earlier one (last-applied wins).  Modelled from the spec:
"this is the only override rule (last-applied wins)". -/
def applyAssigns (st : String → String) : List Assign → String → String
  | [] => st
  | a :: rest => applyAssigns (applyAssign st a) rest

/-- The value a list of assignments alone gives to a name (empty string when
the name is never assigned): the last assignment wins. -/
def lastAssigned (as : List Assign) (n : String) : String :=
  applyAssigns (fun _ => "") as n

/-- The store of declared schema defaults of a parameter list. -/
def defaultStore (ps : List Param) : String → String :=
  fun n =>
    match ps.find? (fun p => p.name == n) with
    | some p => p.defVal
    | none => ""

/-- `parser.SetDefaultValue("db.write-buffer.mode", "adaptive")` from
`server_main.cc`: after registration, the declared default of the
write-buffer mode parameter is programmatically overridden to `adaptive`. -/
def withWriteBufferDefault (st : String → String) : String → String :=
  fun n => if n = "db.write-buffer.mode" then "adaptive" else st n

/-- The three general parameters registered directly in `main`:
`configfile` (default = the path resolved by phase 1), the `foreground`
flag, and the mandatory `db.path`. -/
def baseParams (cf : String) : List Param :=
  [⟨"configfile", cf, false⟩, ⟨"foreground", "false", false⟩,
   ⟨"db.path", "", true⟩]

/-- The full schema of phase 2: the general parameters plus whatever
`DatabaseOptions::AddParametersToConfigParser` and
`ServerOptions::AddParametersToConfigParser` register (those registrations
are not part of the given source, so they are an abstract input of the
model, `Env.extraParams`). -/
def registeredParams (env : Env) (cf : String) : List Param :=
  baseParams cf ++ env.extraParams

/-- The names of a list of assignments that are not registered parameters.
Modelled from the spec: a strict parse rejects unrecognized names. -/
def unknownNames (ps : List Param) (as : List Assign) : List String :=
  (as.filter (fun a => !(ps.any (fun p => p.name == a.1)))).map Prod.fst

/-- The names of all mandatory registered parameters that no parsed source
assigned.  Modelled from the spec: `FoundAllMandatoryParameters` /
`PrintAllMissingMandatoryParameters` report every missing mandatory
parameter. -/
def missingMandatory (ps : List Param) (found : List String) : List String :=
  (ps.filter (fun p => p.mandatory && !(found.contains p.name))).map Param.name

/-- Modelled from the spec: the logging subsystem's own level parser
(`Logger::set_current_level`, declared in `util/logger.h`, not part of the
given source).  The exact level names are the logging subsystem's; what the
model needs is the closed set it accepts. -/
def loggerLevels : List String :=
  ["emerg", "alert", "crit", "error", "warn", "notice", "info", "debug",
   "trace"]

/-- Whether the logging subsystem's level parser accepts a level string. -/
def loggerAccepts (s : String) : Bool := loggerLevels.contains s

/-- `kVersionServerMajor.kVersionServerMinor.kVersionServerRevision-kVersionServerBuild`
= 0.9.0-0: the four components printed by the `KingServer version: %d.%d.%d-%d`
line of the help banner. -/
def serverVersionComponents : List Nat := [0, 9, 0, 0]

/-- The components of the `KingDB version: %d.%d.%d` banner line (the engine
version constants live in the library headers, not in the given source, so
their values are environment inputs; the line prints exactly three). -/
def engineVersionComponents (env : Env) : List Nat :=
  [env.engineVersion.1, env.engineVersion.2.1, env.engineVersion.2.2]

/-- The components of the `Data format version: %d.%d` banner line: exactly
two are printed. -/
def dataFormatVersionComponents (env : Env) : List Nat :=
  [env.dataFormatVersion.1, env.dataFormatVersion.2]

/-- `strncmp(a, lit, lit.length) == 0`: the characters of `lit` are a prefix
of the characters of `a`. -/
def strStarts (a lit : String) : Bool := lit.data.isPrefixOf a.data

/-- The help short-circuit condition of `main`:
`argc == 2 && (strncmp(argv[1], "--help", 6) == 0 || strncmp(argv[1], "-h", 2) == 0)`.
`args` is `argv[1..]`, so `argc == 2` is a one-element list, and comparing
the first `n` bytes against an `n`-byte literal is a prefix test. -/
def helpTriggered (args : List String) : Bool :=
  match args with
  | [a] => strStarts a "--help" || strStarts a "-h"
  | _ => false

/-- The documentation-dump short-circuit condition of `main`:
`argc == 2 && (strncmp(argv[1], "--generate-doc", 6) == 0 || strncmp(argv[1], "-h", 2) == 0)`.
`strncmp` with length 6 compares only the first six bytes of
`"--generate-doc"`, i.e. the literal `"--gene"`. -/
def genDocTriggered (args : List String) : Bool :=
  match args with
  | [a] => strStarts a "--gene" || strStarts a "-h"
  | _ => false

/-- The events of the `--help` branch: the introduction text, the version
banner (server, engine, data-format version components), the usage listing,
then `exit(0)`. -/
def helpEvents (env : Env) : List Event :=
  [Event.stdoutMsg "KingServer is a persisted key-value database server",
   Event.versionBanner
     [serverVersionComponents, engineVersionComponents env,
      dataFormatVersionComponents env],
   Event.stdoutMsg "Parameters:", Event.helpUsage, Event.exited 0]

/-- The events of the `--generate-doc` branch: the announcement text, the
markdown dump, then `exit(0)`. -/
def genDocEvents : List Event :=
  [Event.stdoutMsg "Generating the parameter list in markdown format for use in the documentation.",
   Event.markdownDoc, Event.exited 0]

/-- Full resolution: schema defaults (with the programmatic write-buffer
override), then the config-file assignments, then the command-line
assignments applied on top. -/
def fullResolve (ps : List Param) (fileAs cliAs : List Assign) :
    String → String :=
  applyAssigns (applyAssigns (withWriteBufferDefault (defaultStore ps)) fileAs)
    cliAs

/-- `daemonize()` from `server_main.cc`, seen from the process that survives:
cache the working directory, fork (parent exits with success), create a new
session, fork again (intermediate parent exits), reset the umask, chdir to
the root.  Returns the event list and the function's return value: `-1` when
either fork or `setsid` fails, `0` otherwise; a failed `chdir("/")` only
writes to stderr. -/
def daemonize (env : Env) : List Event × Int :=
  if env.fork1Fails then ([Event.getcwdCached], -1)
  else if env.setsidFails then
    ([Event.getcwdCached, Event.forked 1, Event.parentExited], -1)
  else if env.fork2Fails then
    ([Event.getcwdCached, Event.forked 1, Event.parentExited,
      Event.sessionCreated], -1)
  else
    ([Event.getcwdCached, Event.forked 1, Event.parentExited,
      Event.sessionCreated, Event.forked 2, Event.parentExited,
      Event.umaskSet, Event.chdirRoot] ++
     (if env.chdirFails then [Event.stderrMsg "chdir(): failed"] else []),
     0)

/-- The poll loop of `main`: at entry of each iteration the combined stop
condition (`stop_requested || server.IsStopRequested()`) is evaluated; when
it is true the loop exits, otherwise the thread sleeps 500 ms and repeats.
`fuel` bounds the number of observed iterations; the Boolean reports whether
the loop exited within the fuel. -/
def pollLoop (sig srv : Nat → Bool) : Nat → Nat → List Event × Bool
  | 0, _ => ([], false)
  | f + 1, i =>
    if sig i || srv i then ([Event.checked true], true)
    else
      (Event.checked false :: Event.slept 500 :: (pollLoop sig srv f (i + 1)).1,
       (pollLoop sig srv f (i + 1)).2)

/-- `n` completed poll iterations whose stop condition was false: each checks
the condition and then sleeps 500 ms. -/
def pollSteps : Nat → List Event
  | 0 => []
  | n + 1 => Event.checked false :: Event.slept 500 :: pollSteps n

/-- The supervisor: `server.Start(...)`, the poll loop, and — when the loop
exited — `server.Stop()` followed by `return 0`. -/
def superviseEvents (env : Env) (db : String) : List Event :=
  Event.serverStarted db ::
    ((pollLoop env.sigStop env.srvStop env.fuel 0).1 ++
     (if (pollLoop env.sigStop env.srvStop env.fuel 0).2 then
       [Event.serverStopped, Event.returned 0]
     else []))

/-- The four `signal()` installations of `main`, in source order: the two
termination handlers, then the two crash handlers. -/
def signalEvents : List Event :=
  [Event.signalInstalled "SIGINT", Event.signalInstalled "SIGTERM",
   Event.signalInstalled "SIGSEGV", Event.signalInstalled "SIGABRT"]

/-- `main` after the signal installations: when `run_in_foreground` is set
the supervisor runs directly; otherwise `daemonize()` runs first and a
negative return value is fatal (`exit(-1)`), with no fallback. -/
def postDaemonTail (env : Env) (st : String → String) : List Event :=
  if st "foreground" == "true" then superviseEvents env (st "db.path")
  else
    (daemonize env).1 ++
      (if (daemonize env).2 < 0 then
        [Event.stderrMsg "Could not daemonize the process", Event.exited (-1)]
      else superviseEvents env (st "db.path"))

/-- `main` after enum validation: `increase_limit_open_files()`, the four
signal installations, then daemonization and the supervisor. -/
def postValidation (env : Env) (st : String → String) : List Event :=
  Event.limitRaised :: signalEvents ++ postDaemonTail env st

/-- The validation chain of `main`, on the resolved store: log level (only
when non-empty, delegated to the logger's parser), log target, then the
three enumerated options in source order — compression algorithm
`{disabled, lz4}`, hashing algorithm `{xxhash-64, murmurhash3-64}`,
write-buffer mode `{direct, adaptive}`.  Each failure prints
`Unknown <parameter>: [<value>]` and exits `-1`. -/
def validationStage (env : Env) (st : String → String) : List Event :=
  if st "log.level" ≠ "" ∧ loggerAccepts (st "log.level") = false then
    [Event.stderrMsg ("Unknown log level: [" ++ st "log.level" ++ "]"),
     Event.exited (-1)]
  else
    (if st "log.level" = "" then [] else [Event.logLevelSet (st "log.level")])
      ++ Event.logTargetSet (st "log.target") ::
    (if st "storage.compression-algorithm" ≠ "disabled" ∧
        st "storage.compression-algorithm" ≠ "lz4" then
      [Event.stderrMsg ("Unknown compression algorithm: [" ++
         st "storage.compression-algorithm" ++ "]"), Event.exited (-1)]
    else if st "storage.hashing-algorithm" ≠ "xxhash-64" ∧
        st "storage.hashing-algorithm" ≠ "murmurhash3-64" then
      [Event.stderrMsg ("Unknown hashing algorithm: [" ++
         st "storage.hashing-algorithm" ++ "]"), Event.exited (-1)]
    else if st "db.write-buffer.mode" ≠ "direct" ∧
        st "db.write-buffer.mode" ≠ "adaptive" then
      [Event.stderrMsg ("Unknown write buffer mode: [" ++
         st "db.write-buffer.mode" ++ "]"), Event.exited (-1)]
    else postValidation env st)

/-- The config-file assignment source of phase 2: the resolved file's
assignments, or nothing when no config file was resolved. -/
def fileSrc (env : Env) (cf : String) : List Assign :=
  if cf = "" then [] else env.fileAssigns cf

/-- The parameter names assigned by some parsed source (file or command
line): these are the names the mandatory-parameter check counts as found. -/
def parsedNames (env : Env) (cf : String) : List String :=
  (fileSrc env cf ++ env.cliAssigns).map Prod.fst

/-- The store phase 2 resolves: defaults, then file, then command line. -/
def resolvedStore (env : Env) (cf : String) : String → String :=
  fullResolve (registeredParams env cf) (fileSrc env cf) env.cliAssigns

/-- Phase 2 parsing of `main`: `ParseFile` on the resolved config file (when
one was resolved), `ParseCommandLine` in strict mode, the mandatory-parameter
check (reporting every missing name), then the validation chain on the fully
resolved store. -/
def parseStage (env : Env) (cf : String) : List Event :=
  if unknownNames (registeredParams env cf) (fileSrc env cf) ≠ [] then
    [Event.stderrMsg "config file parse error", Event.exited (-1)]
  else
    (if cf = "" then [] else [Event.fileParsed cf]) ++
    (if unknownNames (registeredParams env cf) env.cliAssigns ≠ [] then
      [Event.stderrMsg "command line parse error", Event.exited (-1)]
    else
      Event.cliParsed ::
      (if missingMandatory (registeredParams env cf) (parsedNames env cf) ≠ [] then
        [Event.missingReported
          (missingMandatory (registeredParams env cf) (parsedNames env cf)),
         Event.exited (-1)]
      else validationStage env (resolvedStore env cf)))

/-- Phase 1 of `main`: a tolerant command-line parse that extracts only the
`configfile` value, then the probing logic — no explicit value probes
`./kingdb.conf` then `/etc/kingdb.conf` and the first existing wins (none
existing leaves the value empty); an explicit value that does not exist is
fatal.  Returns the events and `some cf` to continue with, or `none` when
the process exited. -/
def phase1 (env : Env) : List Event × Option String :=
  if lastAssigned env.cliAssigns "configfile" = "" then
    if env.fsExists "./kingdb.conf" then
      ([Event.statP "./kingdb.conf"], some "./kingdb.conf")
    else if env.fsExists "/etc/kingdb.conf" then
      ([Event.statP "./kingdb.conf", Event.statP "/etc/kingdb.conf"],
       some "/etc/kingdb.conf")
    else
      ([Event.statP "./kingdb.conf", Event.statP "/etc/kingdb.conf"], some "")
  else if env.fsExists (lastAssigned env.cliAssigns "configfile") then
    ([Event.statP (lastAssigned env.cliAssigns "configfile")],
     some (lastAssigned env.cliAssigns "configfile"))
  else
    ([Event.statP (lastAssigned env.cliAssigns "configfile"),
      Event.stderrMsg ("Could not file configuration file [" ++
        lastAssigned env.cliAssigns "configfile" ++ "]"),
      Event.exited (-1)], none)

/-- The whole of `main` (`server_main.cc`): phase 1, the two informational
short-circuits, then phase 2 parsing, validation, signal installation,
daemonization, and the supervisor. -/
def mainModel (env : Env) : List Event :=
  match phase1 env with
  | (ev, none) => ev
  | (ev, some cf) =>
    if helpTriggered env.args then ev ++ helpEvents env
    else if genDocTriggered env.args then ev ++ genDocEvents
    else ev ++ parseStage env cf

/-- The operations of this core that execute while the process-wide
`stop_requested` flag lives: the termination signal handler, the crash
signal handler, and a read of the flag by a poll-loop check. -/
inductive CoreOp where
  | termSignal (n : Int)
  | crashSignal (n : Int)
  | pollCheck
deriving DecidableEq, Repr

/-- The effect of one operation on `stop_requested`: the termination handler
writes `true` (`stop_requested = true;`); no other operation writes the
flag. -/
def stepFlag (b : Bool) : CoreOp → Bool
  | CoreOp.termSignal _ => true
  | _ => b

/-- The flag value after a sequence of operations. -/
def runFlag (ops : List CoreOp) (b : Bool) : Bool := ops.foldl stepFlag b

/-- How many operations of a sequence change the flag's value. -/
def countTransitions (b : Bool) : List CoreOp → Nat
  | [] => 0
  | op :: rest =>
    (if stepFlag b op ≠ b then 1 else 0) + countTransitions (stepFlag b op) rest

/-- `bool stop_requested = false;` — the flag's initial value. -/
def stopRequestedInit : Bool := false

/-- All four validated option values of a resolved store lie inside their
closed sets (the log level being validated only when non-empty, by the
logging subsystem's parser). -/
def validEnums (st : String → String) : Prop :=
  (st "log.level" = "" ∨ loggerAccepts (st "log.level") = true) ∧
  (st "storage.compression-algorithm" = "disabled" ∨
    st "storage.compression-algorithm" = "lz4") ∧
  (st "storage.hashing-algorithm" = "xxhash-64" ∨
    st "storage.hashing-algorithm" = "murmurhash3-64") ∧
  (st "db.write-buffer.mode" = "direct" ∨
    st "db.write-buffer.mode" = "adaptive")

instance (st : String → String) : Decidable (validEnums st) := by
  unfold validEnums
  infer_instance

/-- Modelled from the spec: a representative registration performed by the
two option groups — the four validated parameters with defaults inside their
validated sets ("validates default enumerated options successfully"), the
write-buffer mode carrying a declared schema default that the programmatic
override replaces. -/
def demoExtraParams : List Param :=
  [⟨"log.level", "", false⟩, ⟨"log.target", "kingdb", false⟩,
   ⟨"storage.compression-algorithm", "lz4", false⟩,
   ⟨"storage.hashing-algorithm", "xxhash-64", false⟩,
   ⟨"db.write-buffer.mode", "direct", false⟩]

/-- A base concrete environment: empty command line, no files on disk, all
process-control calls succeed, the server requests a stop at the first
poll. -/
def baseEnv : Env where
  args := []
  cliAssigns := []
  fsExists := fun _ => false
  fileAssigns := fun _ => []
  extraParams := demoExtraParams
  engineVersion := (1, 2, 3)
  dataFormatVersion := (4, 5)
  fork1Fails := false
  setsidFails := false
  fork2Fails := false
  chdirFails := false
  sigStop := fun _ => false
  srvStop := fun _ => true
  fuel := 3

/-- A valid foreground invocation: `--db.path=/tmp/db --foreground`. -/
def envRun : Env :=
  { baseEnv with
    args := ["--db.path=/tmp/db", "--foreground"]
    cliAssigns := [("db.path", "/tmp/db"), ("foreground", "true")] }

/-- An otherwise-valid invocation carrying
`--storage.compression-algorithm=unknown`. -/
def envBadCompression : Env :=
  { baseEnv with
    args := ["--db.path=/tmp/db", "--foreground",
             "--storage.compression-algorithm=unknown"]
    cliAssigns := [("db.path", "/tmp/db"), ("foreground", "true"),
                   ("storage.compression-algorithm", "unknown")] }

/-- An invocation that omits the mandatory `--db.path`. -/
def envMissing : Env :=
  { baseEnv with
    args := ["--foreground"]
    cliAssigns := [("foreground", "true")] }

/-- A sole `--help` argument. -/
def envHelp : Env :=
  { baseEnv with args := ["--help"] }

/-- A sole `--generate-doc` argument. -/
def envGenDoc : Env :=
  { baseEnv with args := ["--generate-doc"] }

/-- `--help` next to another argument: `argc` is 3, so no short-circuit. -/
def envHelpPlus : Env :=
  { baseEnv with
    args := ["--help", "--db.path=/tmp/db"]
    cliAssigns := [("db.path", "/tmp/db")] }

/-- An explicit `--configfile` pointing at a path that does not exist. -/
def envBadConfig : Env :=
  { baseEnv with
    args := ["--configfile=/nope.conf", "--db.path=/tmp/db"]
    cliAssigns := [("configfile", "/nope.conf"), ("db.path", "/tmp/db")] }

/-- `./kingdb.conf` exists and sets `db.path`; the command line overrides
it. -/
def envFileCli : Env :=
  { baseEnv with
    args := ["--db.path=/cli", "--foreground"]
    cliAssigns := [("db.path", "/cli"), ("foreground", "true")]
    fsExists := fun p => p == "./kingdb.conf"
    fileAssigns := fun p =>
      if p == "./kingdb.conf" then [("db.path", "/file")] else [] }

/-- A valid background invocation whose final `chdir("/")` fails. -/
def envDaemonChdir : Env :=
  { baseEnv with
    args := ["--db.path=/tmp/db"]
    cliAssigns := [("db.path", "/tmp/db")]
    chdirFails := true }

/-- A valid background invocation whose first `fork()` fails. -/
def envDaemonFork : Env :=
  { baseEnv with
    args := ["--db.path=/tmp/db"]
    cliAssigns := [("db.path", "/tmp/db")]
    fork1Fails := true }

/-- A valid foreground invocation where the stop condition first becomes
true at the third poll-loop check. -/
def envPoll : Env :=
  { baseEnv with
    args := ["--db.path=/tmp/db", "--foreground"]
    cliAssigns := [("db.path", "/tmp/db"), ("foreground", "true")]
    srvStop := fun i => decide (2 ≤ i)
    fuel := 5 }

/-! ### Helper lemmas about the resolution store -/

theorem applyAssigns_of_not_mem (as : List Assign) (st : String → String)
    (n : String) (h : n ∉ as.map Prod.fst) : applyAssigns st as n = st n := by
  induction as generalizing st with
  | nil => rfl
  | cons a rest ih =>
    simp only [List.map_cons, List.mem_cons, not_or] at h
    simp only [applyAssigns]
    rw [ih _ h.2]
    simp [applyAssign, h.1]

theorem applyAssigns_of_mem (as : List Assign) (st st' : String → String)
    (n : String) (h : n ∈ as.map Prod.fst) :
    applyAssigns st as n = applyAssigns st' as n := by
  induction as generalizing st st' with
  | nil => simp at h
  | cons a rest ih =>
    by_cases hm : n ∈ rest.map Prod.fst
    · simp only [applyAssigns]
      exact ih _ _ hm
    · simp only [List.map_cons, List.mem_cons] at h
      rcases h with h | h
      · simp only [applyAssigns]
        rw [applyAssigns_of_not_mem _ _ _ hm, applyAssigns_of_not_mem _ _ _ hm]
        simp [applyAssign, h]
      · exact absurd h hm

/-! ### Helper lemmas about the stop flag -/

theorem stepFlag_true (op : CoreOp) : stepFlag true op = true := by
  cases op <;> rfl

theorem runFlag_true (ops : List CoreOp) : runFlag ops true = true := by
  induction ops with
  | nil => rfl
  | cons op rest ih =>
    simp only [runFlag, List.foldl_cons, stepFlag_true]
    exact ih

theorem countTransitions_true (ops : List CoreOp) :
    countTransitions true ops = 0 := by
  induction ops with
  | nil => rfl
  | cons op rest ih =>
    simp only [countTransitions, stepFlag_true]
    simpa using ih

theorem countTransitions_false_of_term (ops : List CoreOp)
    (h : ∃ n, CoreOp.termSignal n ∈ ops) : countTransitions false ops = 1 := by
  induction ops with
  | nil => simp at h
  | cons op rest ih =>
    cases op with
    | termSignal n =>
      simp only [countTransitions, stepFlag]
      simp [countTransitions_true]
    | crashSignal n =>
      obtain ⟨m, hm⟩ := h
      simp only [List.mem_cons] at hm
      rcases hm with hm | hm
      · exact absurd hm (by simp)
      · simpa [countTransitions, stepFlag] using ih ⟨m, hm⟩
    | pollCheck =>
      obtain ⟨m, hm⟩ := h
      simp only [List.mem_cons] at hm
      rcases hm with hm | hm
      · exact absurd hm (by simp)
      · simpa [countTransitions, stepFlag] using ih ⟨m, hm⟩

theorem runFlag_false_of_no_term (ops : List CoreOp)
    (h : ∀ n, CoreOp.termSignal n ∉ ops) : runFlag ops false = false := by
  induction ops with
  | nil => rfl
  | cons op rest ih =>
    cases op with
    | termSignal n => exact absurd (List.mem_cons_self _ _) (h n)
    | crashSignal n =>
      simp only [runFlag, List.foldl_cons, stepFlag]
      exact ih (fun m hm => h m (List.mem_cons_of_mem _ hm))
    | pollCheck =>
      simp only [runFlag, List.foldl_cons, stepFlag]
      exact ih (fun m hm => h m (List.mem_cons_of_mem _ hm))

/-! ### Helper lemmas about the poll loop -/

theorem pollLoop_eq (sig srv : Nat → Bool) (n : Nat) :
    ∀ f j, (∀ i, i < n → (sig (j + i) || srv (j + i)) = false) →
      (sig (j + n) || srv (j + n)) = true → n < f →
      pollLoop sig srv f j = (pollSteps n ++ [Event.checked true], true) := by
  induction n with
  | zero =>
    intro f j h0 hn hf
    match f, hf with
    | f + 1, _ =>
      simp only [Nat.add_zero] at hn
      simp [pollLoop, hn, pollSteps]
  | succ n ih =>
    intro f j h0 hn hf
    match f, hf with
    | f + 1, hf =>
      have hj : (sig j || srv j) = false := by
        have := h0 0 (Nat.succ_pos n)
        simpa using this
      have h0' : ∀ i, i < n → (sig (j + 1 + i) || srv (j + 1 + i)) = false := by
        intro i hi
        have := h0 (i + 1) (Nat.succ_lt_succ hi)
        rwa [show j + (i + 1) = j + 1 + i by omega] at this
      have hn' : (sig (j + 1 + n) || srv (j + 1 + n)) = true := by
        rw [show j + 1 + n = j + (n + 1) by omega]
        exact hn
      have hrec := ih f (j + 1) h0' hn' (Nat.lt_of_succ_lt_succ hf)
      simp [pollLoop, hj, hrec, pollSteps]

theorem pollSteps_shape (n : Nat) :
    ∀ e ∈ pollSteps n, e = Event.checked false ∨ e = Event.slept 500 := by
  induction n with
  | zero => intro e he; simp [pollSteps] at he
  | succ n ih =>
    intro e he
    simp only [pollSteps, List.mem_cons] at he
    rcases he with he | he | he
    · exact Or.inl he
    · exact Or.inr he
    · exact ih e he

theorem pollLoop_shape (sig srv : Nat → Bool) :
    ∀ f j, ∀ e ∈ (pollLoop sig srv f j).1,
      (∃ b, e = Event.checked b) ∨ e = Event.slept 500 := by
  intro f
  induction f with
  | zero => intro j e he; simp [pollLoop] at he
  | succ f ih =>
    intro j e he
    by_cases hc : (sig j || srv j) = true
    · simp [pollLoop, hc] at he
      exact Or.inl ⟨true, he⟩
    · simp [pollLoop, hc] at he
      rcases he with he | he | he
      · exact Or.inl ⟨false, he⟩
      · exact Or.inr he
      · exact ih (j + 1) e he

/-! ### Shape lemmas: which constructors each stage can emit -/

theorem superviseEvents_shape (env : Env) (db : String) :
    ∀ e ∈ superviseEvents env db,
      e = Event.serverStarted db ∨ (∃ b, e = Event.checked b) ∨
      e = Event.slept 500 ∨ e = Event.serverStopped ∨ e = Event.returned 0 := by
  intro e he
  simp only [superviseEvents, List.mem_cons, List.mem_append] at he
  rcases he with he | he | he
  · exact Or.inl he
  · rcases pollLoop_shape env.sigStop env.srvStop env.fuel 0 e he with h | h
    · exact Or.inr (Or.inl h)
    · exact Or.inr (Or.inr (Or.inl h))
  · split at he <;> (simp at he; try aesop)

theorem daemonize_shape (env : Env) :
    ∀ e ∈ (daemonize env).1,
      e = Event.getcwdCached ∨ (∃ k, e = Event.forked k) ∨
      e = Event.parentExited ∨ e = Event.sessionCreated ∨
      e = Event.umaskSet ∨ e = Event.chdirRoot ∨
      (∃ s, e = Event.stderrMsg s) := by
  intro e he
  unfold daemonize at he
  split_ifs at he <;> simp at he <;> aesop

theorem phase1_shape (env : Env) :
    ∀ e ∈ (phase1 env).1,
      (∃ p, e = Event.statP p) ∨ (∃ s, e = Event.stderrMsg s) ∨
      (∃ c, e = Event.exited c) := by
  intro e he
  unfold phase1 at he
  split_ifs at he <;> simp at he <;> aesop

/-! ### Unfolding lemmas for the composed bootstrap -/

theorem mainModel_of_none (env : Env) (pre : List Event)
    (h1 : phase1 env = (pre, none)) : mainModel env = pre := by
  simp [mainModel, h1]

theorem mainModel_of_help (env : Env) (pre : List Event) (cf : String)
    (h1 : phase1 env = (pre, some cf))
    (hh : helpTriggered env.args = true) :
    mainModel env = pre ++ helpEvents env := by
  simp [mainModel, h1, hh]

theorem mainModel_of_genDoc (env : Env) (pre : List Event) (cf : String)
    (h1 : phase1 env = (pre, some cf))
    (hh : helpTriggered env.args = false)
    (hg : genDocTriggered env.args = true) :
    mainModel env = pre ++ genDocEvents := by
  simp [mainModel, h1, hh, hg]

theorem mainModel_of_parse (env : Env) (pre : List Event) (cf : String)
    (h1 : phase1 env = (pre, some cf))
    (hh : helpTriggered env.args = false)
    (hg : genDocTriggered env.args = false) :
    mainModel env = pre ++ parseStage env cf := by
  simp [mainModel, h1, hh, hg]

theorem parseStage_of_ok (env : Env) (cf : String)
    (hfu : unknownNames (registeredParams env cf) (fileSrc env cf) = [])
    (hcu : unknownNames (registeredParams env cf) env.cliAssigns = [])
    (hm : missingMandatory (registeredParams env cf) (parsedNames env cf) = []) :
    parseStage env cf = (if cf = "" then [] else [Event.fileParsed cf]) ++
      Event.cliParsed :: validationStage env (resolvedStore env cf) := by
  simp [parseStage, hfu, hcu, hm]

theorem parseStage_of_missing (env : Env) (cf : String)
    (hfu : unknownNames (registeredParams env cf) (fileSrc env cf) = [])
    (hcu : unknownNames (registeredParams env cf) env.cliAssigns = [])
    (hm : missingMandatory (registeredParams env cf) (parsedNames env cf) ≠ []) :
    parseStage env cf = (if cf = "" then [] else [Event.fileParsed cf]) ++
      [Event.cliParsed,
       Event.missingReported
         (missingMandatory (registeredParams env cf) (parsedNames env cf)),
       Event.exited (-1)] := by
  simp [parseStage, hfu, hcu, hm]

theorem validationStage_of_valid (env : Env) (st : String → String)
    (hv : validEnums st) :
    validationStage env st =
      (if st "log.level" = "" then [] else [Event.logLevelSet (st "log.level")])
        ++ Event.logTargetSet (st "log.target") :: postValidation env st := by
  obtain ⟨hl, hc, hh, hw⟩ := hv
  have h1 : ¬(st "log.level" ≠ "" ∧ loggerAccepts (st "log.level") = false) := by
    rcases hl with hl | hl <;> simp [hl]
  have h2 : ¬(st "storage.compression-algorithm" ≠ "disabled" ∧
      st "storage.compression-algorithm" ≠ "lz4") := by
    rcases hc with hc | hc <;> simp [hc]
  have h3 : ¬(st "storage.hashing-algorithm" ≠ "xxhash-64" ∧
      st "storage.hashing-algorithm" ≠ "murmurhash3-64") := by
    rcases hh with hh | hh <;> simp [hh]
  have h4 : ¬(st "db.write-buffer.mode" ≠ "direct" ∧
      st "db.write-buffer.mode" ≠ "adaptive") := by
    rcases hw with hw | hw <;> simp [hw]
  simp [validationStage, h1, h2, h3, h4]

/-! ### Which stages can contain a signal installation -/

theorem validEnums_of_signal_mem (env : Env) (st : String → String)
    (s : String) (h : Event.signalInstalled s ∈ validationStage env st) :
    validEnums st := by
  unfold validationStage at h
  by_cases h1 : st "log.level" ≠ "" ∧ loggerAccepts (st "log.level") = false
  · rw [if_pos h1] at h
    simp at h
  · rw [if_neg h1] at h
    by_cases h2 : st "storage.compression-algorithm" ≠ "disabled" ∧
        st "storage.compression-algorithm" ≠ "lz4"
    · rw [if_pos h2] at h
      rcases eq_or_ne (st "log.level") "" with hlv | hlv <;> simp [hlv] at h
    · rw [if_neg h2] at h
      by_cases h3 : st "storage.hashing-algorithm" ≠ "xxhash-64" ∧
          st "storage.hashing-algorithm" ≠ "murmurhash3-64"
      · rw [if_pos h3] at h
        rcases eq_or_ne (st "log.level") "" with hlv | hlv <;> simp [hlv] at h
      · rw [if_neg h3] at h
        by_cases h4 : st "db.write-buffer.mode" ≠ "direct" ∧
            st "db.write-buffer.mode" ≠ "adaptive"
        · rw [if_pos h4] at h
          rcases eq_or_ne (st "log.level") "" with hlv | hlv <;> simp [hlv] at h
        · refine ⟨?_, ?_, ?_, ?_⟩
          · rcases not_and_or.mp h1 with hx | hx
            · exact Or.inl (not_not.mp hx)
            · exact Or.inr (by simpa using hx)
          · rcases not_and_or.mp h2 with hx | hx
            · exact Or.inl (not_not.mp hx)
            · exact Or.inr (not_not.mp hx)
          · rcases not_and_or.mp h3 with hx | hx
            · exact Or.inl (not_not.mp hx)
            · exact Or.inr (not_not.mp hx)
          · rcases not_and_or.mp h4 with hx | hx
            · exact Or.inl (not_not.mp hx)
            · exact Or.inr (not_not.mp hx)

/-! ### Stage membership lemmas -/

theorem mem_postDaemonTail (env : Env) (st : String → String) (e : Event)
    (h : e ∈ postDaemonTail env st) :
    e ∈ (daemonize env).1 ∨ (∃ s, e = Event.stderrMsg s) ∨
    (∃ c, e = Event.exited c) ∨ e ∈ superviseEvents env (st "db.path") := by
  unfold postDaemonTail at h
  by_cases hf : (st "foreground" == "true") = true
  · rw [if_pos hf] at h
    exact Or.inr (Or.inr (Or.inr h))
  · rw [if_neg hf] at h
    rcases List.mem_append.mp h with h | h
    · exact Or.inl h
    · by_cases hd : (daemonize env).2 < 0
      · rw [if_pos hd] at h
        simp only [List.mem_cons, List.mem_singleton] at h
        rcases h with h | h
        · exact Or.inr (Or.inl ⟨_, h⟩)
        · simp at h
          exact Or.inr (Or.inr (Or.inl ⟨_, h⟩))
      · rw [if_neg hd] at h
        exact Or.inr (Or.inr (Or.inr h))

theorem mem_postValidation (env : Env) (st : String → String) (e : Event)
    (h : e ∈ postValidation env st) :
    e = Event.limitRaised ∨ (∃ s, e = Event.signalInstalled s) ∨
    e ∈ postDaemonTail env st := by
  unfold postValidation signalEvents at h
  simp only [List.cons_append, List.nil_append, List.mem_cons] at h
  rcases h with h | h | h | h | h | h
  · exact Or.inl h
  · exact Or.inr (Or.inl ⟨_, h⟩)
  · exact Or.inr (Or.inl ⟨_, h⟩)
  · exact Or.inr (Or.inl ⟨_, h⟩)
  · exact Or.inr (Or.inl ⟨_, h⟩)
  · exact Or.inr (Or.inr h)

theorem mem_validationStage (env : Env) (st : String → String) (e : Event)
    (h : e ∈ validationStage env st) :
    (∃ s, e = Event.stderrMsg s) ∨ (∃ c, e = Event.exited c) ∨
    (∃ s, e = Event.logLevelSet s) ∨ (∃ s, e = Event.logTargetSet s) ∨
    e ∈ postValidation env st := by
  unfold validationStage at h
  by_cases h1 : st "log.level" ≠ "" ∧ loggerAccepts (st "log.level") = false
  · rw [if_pos h1] at h
    simp only [List.mem_cons, List.mem_singleton] at h
    rcases h with h | h
    · exact Or.inl ⟨_, h⟩
    · simp at h
      exact Or.inr (Or.inl ⟨_, h⟩)
  · rw [if_neg h1] at h
    have hlv : e ∈ (if st "log.level" = "" then []
        else [Event.logLevelSet (st "log.level")]) → (∃ s, e = Event.logLevelSet s) := by
      intro hx
      rcases eq_or_ne (st "log.level") "" with hq | hq <;> simp [hq] at hx
      exact ⟨_, hx⟩
    rcases List.mem_append.mp h with h | h
    · exact Or.inr (Or.inr (Or.inl (hlv h)))
    · simp only [List.mem_cons] at h
      rcases h with h | h
      · exact Or.inr (Or.inr (Or.inr (Or.inl ⟨_, h⟩)))
      · by_cases h2 : st "storage.compression-algorithm" ≠ "disabled" ∧
            st "storage.compression-algorithm" ≠ "lz4"
        · rw [if_pos h2] at h
          simp only [List.mem_cons, List.mem_singleton] at h
          rcases h with h | h
          · exact Or.inl ⟨_, h⟩
          · simp at h
            exact Or.inr (Or.inl ⟨_, h⟩)
        · rw [if_neg h2] at h
          by_cases h3 : st "storage.hashing-algorithm" ≠ "xxhash-64" ∧
              st "storage.hashing-algorithm" ≠ "murmurhash3-64"
          · rw [if_pos h3] at h
            simp only [List.mem_cons, List.mem_singleton] at h
            rcases h with h | h
            · exact Or.inl ⟨_, h⟩
            · simp at h
              exact Or.inr (Or.inl ⟨_, h⟩)
          · rw [if_neg h3] at h
            by_cases h4 : st "db.write-buffer.mode" ≠ "direct" ∧
                st "db.write-buffer.mode" ≠ "adaptive"
            · rw [if_pos h4] at h
              simp only [List.mem_cons, List.mem_singleton] at h
              rcases h with h | h
              · exact Or.inl ⟨_, h⟩
              · simp at h
                exact Or.inr (Or.inl ⟨_, h⟩)
            · rw [if_neg h4] at h
              exact Or.inr (Or.inr (Or.inr (Or.inr h)))

theorem mem_parseStage (env : Env) (cf : String) (e : Event)
    (h : e ∈ parseStage env cf) :
    (∃ s, e = Event.stderrMsg s) ∨ (∃ c, e = Event.exited c) ∨
    (∃ p, e = Event.fileParsed p) ∨ e = Event.cliParsed ∨
    (∃ ns, e = Event.missingReported ns) ∨
    e ∈ validationStage env (resolvedStore env cf) := by
  unfold parseStage at h
  by_cases hfu : unknownNames (registeredParams env cf) (fileSrc env cf) ≠ []
  · rw [if_pos hfu] at h
    simp only [List.mem_cons, List.mem_singleton] at h
    rcases h with h | h
    · exact Or.inl ⟨_, h⟩
    · simp at h
      exact Or.inr (Or.inl ⟨_, h⟩)
  · rw [if_neg hfu] at h
    rcases List.mem_append.mp h with h | h
    · rcases eq_or_ne cf "" with hq | hq <;> simp [hq] at h
      exact Or.inr (Or.inr (Or.inl ⟨_, h⟩))
    · by_cases hcu : unknownNames (registeredParams env cf) env.cliAssigns ≠ []
      · rw [if_pos hcu] at h
        simp only [List.mem_cons, List.mem_singleton] at h
        rcases h with h | h
        · exact Or.inl ⟨_, h⟩
        · simp at h
          exact Or.inr (Or.inl ⟨_, h⟩)
      · rw [if_neg hcu] at h
        simp only [List.mem_cons] at h
        rcases h with h | h
        · exact Or.inr (Or.inr (Or.inr (Or.inl h)))
        · by_cases hm : missingMandatory (registeredParams env cf)
              (parsedNames env cf) ≠ []
          · rw [if_pos hm] at h
            simp only [List.mem_cons, List.mem_singleton] at h
            rcases h with h | h | h
            · exact Or.inr (Or.inr (Or.inr (Or.inr (Or.inl ⟨_, h⟩))))
            · exact Or.inr (Or.inl ⟨_, h⟩)
            · simp at h
          · rw [if_neg hm] at h
            exact Or.inr (Or.inr (Or.inr (Or.inr (Or.inr h))))

theorem helpUsage_not_mem_postDaemonTail (env : Env) (st : String → String) :
    Event.helpUsage ∉ postDaemonTail env st := by
  intro h
  rcases mem_postDaemonTail env st _ h with h | h | h | h
  · have := daemonize_shape env _ h
    aesop
  · aesop
  · aesop
  · have := superviseEvents_shape env _ _ h
    aesop

theorem markdownDoc_not_mem_postDaemonTail (env : Env) (st : String → String) :
    Event.markdownDoc ∉ postDaemonTail env st := by
  intro h
  rcases mem_postDaemonTail env st _ h with h | h | h | h
  · have := daemonize_shape env _ h
    aesop
  · aesop
  · aesop
  · have := superviseEvents_shape env _ _ h
    aesop

theorem signal_not_mem_postDaemonTail (env : Env) (st : String → String)
    (s : String) : Event.signalInstalled s ∉ postDaemonTail env st := by
  intro h
  rcases mem_postDaemonTail env st _ h with h | h | h | h
  · have := daemonize_shape env _ h
    aesop
  · aesop
  · aesop
  · have := superviseEvents_shape env _ _ h
    aesop

theorem validEnums_of_signal_mem_parseStage (env : Env) (cf : String)
    (s : String) (h : Event.signalInstalled s ∈ parseStage env cf) :
    validEnums (resolvedStore env cf) := by
  rcases mem_parseStage env cf _ h with h | h | h | h | h | h
  · aesop
  · aesop
  · aesop
  · aesop
  · aesop
  · exact validEnums_of_signal_mem env _ s h

theorem signal_mem_mainModel (env : Env) (s : String)
    (h : Event.signalInstalled s ∈ mainModel env) :
    ∃ pre cf, phase1 env = (pre, some cf) ∧ helpTriggered env.args = false ∧
      genDocTriggered env.args = false ∧ validEnums (resolvedStore env cf) := by
  rcases hph : phase1 env with ⟨pre, o⟩
  cases o with
  | none =>
    rw [mainModel_of_none env pre hph] at h
    have := phase1_shape env _ (by rw [hph]; exact h)
    aesop
  | some cf =>
    by_cases hh : helpTriggered env.args = true
    · rw [mainModel_of_help env pre cf hph hh] at h
      rcases List.mem_append.mp h with h | h
      · have := phase1_shape env _ (by rw [hph]; exact h)
        aesop
      · simp [helpEvents] at h
    · have hh2 : helpTriggered env.args = false := eq_false_of_ne_true hh
      by_cases hg : genDocTriggered env.args = true
      · rw [mainModel_of_genDoc env pre cf hph hh2 hg] at h
        rcases List.mem_append.mp h with h | h
        · have := phase1_shape env _ (by rw [hph]; exact h)
          aesop
        · simp [genDocEvents] at h
      · have hg2 : genDocTriggered env.args = false := eq_false_of_ne_true hg
        rw [mainModel_of_parse env pre cf hph hh2 hg2] at h
        rcases List.mem_append.mp h with h | h
        · have := phase1_shape env _ (by rw [hph]; exact h)
          aesop
        · exact ⟨pre, cf, rfl, hh2, hg2,
            validEnums_of_signal_mem_parseStage env cf s h⟩

theorem helpUsage_mem_mainModel (env : Env)
    (h : Event.helpUsage ∈ mainModel env) : helpTriggered env.args = true := by
  rcases hph : phase1 env with ⟨pre, o⟩
  cases o with
  | none =>
    rw [mainModel_of_none env pre hph] at h
    have := phase1_shape env _ (by rw [hph]; exact h)
    aesop
  | some cf =>
    by_cases hh : helpTriggered env.args = true
    · exact hh
    · have hh2 : helpTriggered env.args = false := eq_false_of_ne_true hh
      exfalso
      by_cases hg : genDocTriggered env.args = true
      · rw [mainModel_of_genDoc env pre cf hph hh2 hg] at h
        rcases List.mem_append.mp h with h | h
        · have := phase1_shape env _ (by rw [hph]; exact h)
          aesop
        · simp [genDocEvents] at h
      · have hg2 : genDocTriggered env.args = false := eq_false_of_ne_true hg
        rw [mainModel_of_parse env pre cf hph hh2 hg2] at h
        rcases List.mem_append.mp h with h | h
        · have := phase1_shape env _ (by rw [hph]; exact h)
          aesop
        · rcases mem_parseStage env cf _ h with h | h | h | h | h | h
          · aesop
          · aesop
          · aesop
          · aesop
          · aesop
          · rcases mem_validationStage env _ _ h with h | h | h | h | h
            · aesop
            · aesop
            · aesop
            · aesop
            · rcases mem_postValidation env _ _ h with h | h | h
              · aesop
              · aesop
              · exact helpUsage_not_mem_postDaemonTail env _ h

theorem markdownDoc_mem_mainModel (env : Env)
    (h : Event.markdownDoc ∈ mainModel env) :
    genDocTriggered env.args = true := by
  rcases hph : phase1 env with ⟨pre, o⟩
  cases o with
  | none =>
    rw [mainModel_of_none env pre hph] at h
    have := phase1_shape env _ (by rw [hph]; exact h)
    aesop
  | some cf =>
    by_cases hg : genDocTriggered env.args = true
    · exact hg
    · have hg2 : genDocTriggered env.args = false := eq_false_of_ne_true hg
      exfalso
      by_cases hh : helpTriggered env.args = true
      · rw [mainModel_of_help env pre cf hph hh] at h
        rcases List.mem_append.mp h with h | h
        · have := phase1_shape env _ (by rw [hph]; exact h)
          aesop
        · simp [helpEvents] at h
      · have hh2 : helpTriggered env.args = false := eq_false_of_ne_true hh
        rw [mainModel_of_parse env pre cf hph hh2 hg2] at h
        rcases List.mem_append.mp h with h | h
        · have := phase1_shape env _ (by rw [hph]; exact h)
          aesop
        · rcases mem_parseStage env cf _ h with h | h | h | h | h | h
          · aesop
          · aesop
          · aesop
          · aesop
          · aesop
          · rcases mem_validationStage env _ _ h with h | h | h | h | h
            · aesop
            · aesop
            · aesop
            · aesop
            · rcases mem_postValidation env _ _ h with h | h | h
              · aesop
              · aesop
              · exact markdownDoc_not_mem_postDaemonTail env _ h

/-! ### Small string and list helpers -/

theorem data_isPre_append (a b : String) : a.data <+: (a ++ b).data :=
  ⟨b.data, by simp⟩

theorem data_isPre_extend (a v b : String) : a.data <+: (a ++ v ++ b).data :=
  (data_isPre_append a v).trans (data_isPre_append (a ++ v) b)

theorem data_infix_sandwich (a v b : String) : v.data <:+: (a ++ v ++ b).data :=
  ⟨a.data, b.data, by simp⟩

theorem pollSteps_count_stop (n : Nat) :
    (pollSteps n).count Event.serverStopped = 0 := by
  refine List.count_eq_zero.mpr ?_
  intro h
  rcases pollSteps_shape n _ h with h | h <;> simp at h

theorem mem_missingMandatory (ps : List Param) (found : List String)
    (p : Param) (hp : p ∈ ps) (hm : p.mandatory = true)
    (hf : p.name ∉ found) : p.name ∈ missingMandatory ps found := by
  simp only [missingMandatory, List.mem_map, List.mem_filter]
  refine ⟨p, ⟨hp, ?_⟩, rfl⟩
  simp [hm, hf]

theorem helpTriggered_false_of_length (args : List String)
    (h : args.length ≠ 1) : helpTriggered args = false := by
  match args with
  | [] => rfl
  | [a] => simp at h
  | a :: b :: t => rfl

theorem genDocTriggered_false_of_length (args : List String)
    (h : args.length ≠ 1) : genDocTriggered args = false := by
  match args with
  | [] => rfl
  | [a] => simp at h
  | a :: b :: t => rfl

/-! ### The claims -/

/-- Claim C2: for every parameter set both in the resolved config file and on
the command line, full resolution (`fullResolve`: schema defaults, then the
file's assignments, then the command line's assignments applied on top)
yields the command-line value — the value the command line alone would
resolve, last-applied wins being the only override rule. -/
theorem C2_cli_overrides_file (ps : List Param) (fileAs cliAs : List Assign)
    (n : String) (hfile : n ∈ fileAs.map Prod.fst)
    (hcli : n ∈ cliAs.map Prod.fst) :
    fullResolve ps fileAs cliAs n = lastAssigned cliAs n := by
  unfold fullResolve lastAssigned
  exact applyAssigns_of_mem cliAs _ _ n hcli

/-- Witness for C2: `db.path` set to `/file` by `./kingdb.conf` and to
`/cli` on the command line resolves to `/cli`. -/
theorem C2_cli_overrides_file_witness :
    fullResolve (registeredParams envFileCli "./kingdb.conf")
      (fileSrc envFileCli "./kingdb.conf") envFileCli.cliAssigns "db.path" =
      "/cli" := by
  have h := C2_cli_overrides_file (registeredParams envFileCli "./kingdb.conf")
    (fileSrc envFileCli "./kingdb.conf") envFileCli.cliAssigns "db.path"
    (by decide) (by decide)
  rw [h]
  decide

/-- Claim C6: the process-wide stop flag starts false; the only operation of
this core that changes it is the termination signal handler; its only
transition is the monotonic one-shot false-to-true write, performed exactly
once over any operation sequence containing at least one termination-handler
invocation (a second signal changes nothing), and nothing ever resets it. -/
theorem C6_stop_flag :
    stopRequestedInit = false ∧
    (∀ ops : List CoreOp, runFlag ops true = true) ∧
    (∀ (b : Bool) (op : CoreOp), stepFlag b op ≠ b →
      (∃ n, op = CoreOp.termSignal n) ∧ b = false ∧ stepFlag b op = true) ∧
    (∀ ops : List CoreOp, (∃ n, CoreOp.termSignal n ∈ ops) →
      countTransitions stopRequestedInit ops = 1) ∧
    (∀ ops : List CoreOp, (∀ n, CoreOp.termSignal n ∉ ops) →
      runFlag ops stopRequestedInit = false) := by
  refine ⟨rfl, runFlag_true, ?_, ?_, ?_⟩
  · intro b op h
    cases op with
    | termSignal n =>
      cases b with
      | false => exact ⟨⟨n, rfl⟩, rfl, rfl⟩
      | true => simp [stepFlag] at h
    | crashSignal n => simp [stepFlag] at h
    | pollCheck => simp [stepFlag] at h
  · intro ops h
    exact countTransitions_false_of_term ops h
  · intro ops h
    exact runFlag_false_of_no_term ops h

/-- Witness for C6: two consecutive termination signals produce exactly one
flag transition, and a sequence without termination signals leaves the flag
false. -/
theorem C6_stop_flag_witness :
    countTransitions stopRequestedInit
      [CoreOp.termSignal 2, CoreOp.termSignal 15] = 1 ∧
    runFlag [CoreOp.pollCheck, CoreOp.crashSignal 11] stopRequestedInit =
      false := by
  constructor
  · exact C6_stop_flag.2.2.2.1 _ ⟨2, by simp⟩
  · refine C6_stop_flag.2.2.2.2 _ ?_
    intro n h
    simp at h

/-- Claim C4: configfile resolution.  Phase 1 extracts only the `configfile`
value from the command line (tolerating anything else: it can only abort
when an explicit path does not exist — last conjunct).  With no explicit
value, `./kingdb.conf` is probed before `/etc/kingdb.conf` and the first
that exists wins, no file being used when neither exists; an explicit value
naming a nonexistent file produces a diagnostic containing that path and
the process exits `-1` (the two `phase1 env = (pre, none)` conjuncts: the
whole run is exactly the failing prefix, which ends in `exited (-1)`). -/
theorem C4_configfile_resolution :
    (∀ env : Env, lastAssigned env.cliAssigns "configfile" = "" →
      env.fsExists "./kingdb.conf" = true →
      phase1 env = ([Event.statP "./kingdb.conf"], some "./kingdb.conf")) ∧
    (∀ env : Env, lastAssigned env.cliAssigns "configfile" = "" →
      env.fsExists "./kingdb.conf" = false →
      env.fsExists "/etc/kingdb.conf" = true →
      phase1 env = ([Event.statP "./kingdb.conf",
        Event.statP "/etc/kingdb.conf"], some "/etc/kingdb.conf")) ∧
    (∀ env : Env, lastAssigned env.cliAssigns "configfile" = "" →
      env.fsExists "./kingdb.conf" = false →
      env.fsExists "/etc/kingdb.conf" = false →
      phase1 env = ([Event.statP "./kingdb.conf",
        Event.statP "/etc/kingdb.conf"], some "")) ∧
    (∀ env : Env, lastAssigned env.cliAssigns "configfile" ≠ "" →
      env.fsExists (lastAssigned env.cliAssigns "configfile") = true →
      phase1 env = ([Event.statP (lastAssigned env.cliAssigns "configfile")],
        some (lastAssigned env.cliAssigns "configfile"))) ∧
    (∀ env : Env, lastAssigned env.cliAssigns "configfile" ≠ "" →
      env.fsExists (lastAssigned env.cliAssigns "configfile") = false →
      phase1 env = ([Event.statP (lastAssigned env.cliAssigns "configfile"),
        Event.stderrMsg ("Could not file configuration file [" ++
          lastAssigned env.cliAssigns "configfile" ++ "]"),
        Event.exited (-1)], none) ∧
      (lastAssigned env.cliAssigns "configfile").data <:+:
        ("Could not file configuration file [" ++
          lastAssigned env.cliAssigns "configfile" ++ "]").data) ∧
    (∀ (env : Env) (pre : List Event), phase1 env = (pre, none) →
      mainModel env = pre) ∧
    (∀ (env : Env) (pre : List Event), phase1 env = (pre, none) →
      lastAssigned env.cliAssigns "configfile" ≠ "" ∧
      env.fsExists (lastAssigned env.cliAssigns "configfile") = false) := by
  refine ⟨?_, ?_, ?_, ?_, ?_, ?_, ?_⟩
  · intro env h0 h1
    simp [phase1, h0, h1]
  · intro env h0 h1 h2
    simp [phase1, h0, h1, h2]
  · intro env h0 h1 h2
    simp [phase1, h0, h1, h2]
  · intro env h0 h1
    simp [phase1, h0, h1]
  · intro env h0 h1
    refine ⟨by simp [phase1, h0, h1], ?_⟩
    exact data_infix_sandwich "Could not file configuration file [" _ "]"
  · intro env pre h
    exact mainModel_of_none env pre h
  · intro env pre h
    by_cases h0 : lastAssigned env.cliAssigns "configfile" = ""
    · exfalso
      by_cases h1 : env.fsExists "./kingdb.conf" = true
      · simp [phase1, h0, h1] at h
      · by_cases h2 : env.fsExists "/etc/kingdb.conf" = true
        · simp [phase1, h0, h1, h2] at h
        · simp [phase1, h0, eq_false_of_ne_true h1, eq_false_of_ne_true h2]
            at h
    · refine ⟨h0, ?_⟩
      by_cases h1 : env.fsExists (lastAssigned env.cliAssigns "configfile") =
          true
      · exfalso
        simp [phase1, h0, h1] at h
      · exact eq_false_of_ne_true h1

/-- Witness for C4: the current-directory default wins when it exists; an
explicit nonexistent `--configfile=/nope.conf` fails phase 1 with a
diagnostic naming `/nope.conf`, and the whole run is that failing prefix. -/
theorem C4_configfile_resolution_witness :
    phase1 envFileCli = ([Event.statP "./kingdb.conf"],
      some "./kingdb.conf") ∧
    phase1 envBadConfig = ([Event.statP "/nope.conf",
      Event.stderrMsg "Could not file configuration file [/nope.conf]",
      Event.exited (-1)], none) ∧
    mainModel envBadConfig = [Event.statP "/nope.conf",
      Event.stderrMsg "Could not file configuration file [/nope.conf]",
      Event.exited (-1)] := by
  have h := C4_configfile_resolution
  refine ⟨h.1 envFileCli (by decide) (by decide), ?_, ?_⟩
  · have h5 := (h.2.2.2.2.1 envBadConfig (by decide) (by decide)).1
    rw [h5]
    decide
  · have h5 := (h.2.2.2.2.1 envBadConfig (by decide) (by decide)).1
    have h6 := h.2.2.2.2.2.1 envBadConfig _ h5
    rw [h6]
    decide

/-- Claim C3: when mandatory parameters are unresolved after full parsing,
the run reports every missing mandatory parameter name in one pass
(`missingMandatory` lists all of them — second conjunct) and exits `-1`
immediately, before any validation (no log configuration, no diagnostics),
any signal installation, any daemonization step, or Server.Start. -/
theorem C3_missing_mandatory (env : Env) (cf : String) (pre : List Event)
    (h1 : phase1 env = (pre, some cf))
    (hh : helpTriggered env.args = false)
    (hg : genDocTriggered env.args = false)
    (hfu : unknownNames (registeredParams env cf) (fileSrc env cf) = [])
    (hcu : unknownNames (registeredParams env cf) env.cliAssigns = [])
    (hm : missingMandatory (registeredParams env cf) (parsedNames env cf) ≠ []) :
    mainModel env = pre ++ ((if cf = "" then [] else [Event.fileParsed cf]) ++
      [Event.cliParsed,
       Event.missingReported
         (missingMandatory (registeredParams env cf) (parsedNames env cf)),
       Event.exited (-1)]) ∧
    (∀ p ∈ registeredParams env cf, p.mandatory = true →
      p.name ∉ parsedNames env cf →
      p.name ∈ missingMandatory (registeredParams env cf) (parsedNames env cf)) ∧
    (∀ s, Event.signalInstalled s ∉ mainModel env) ∧
    Event.getcwdCached ∉ mainModel env ∧
    (∀ d, Event.serverStarted d ∉ mainModel env) ∧
    (∀ s, Event.logTargetSet s ∉ mainModel env) := by
  have he : mainModel env = pre ++
      ((if cf = "" then [] else [Event.fileParsed cf]) ++
       [Event.cliParsed,
        Event.missingReported
          (missingMandatory (registeredParams env cf) (parsedNames env cf)),
        Event.exited (-1)]) := by
    rw [mainModel_of_parse env pre cf h1 hh hg,
      parseStage_of_missing env cf hfu hcu hm]
  have habs : ∀ e : Event,
      ((∃ p, e = Event.statP p) ∨ (∃ s, e = Event.stderrMsg s) ∨
       (∃ c, e = Event.exited c) ∨ (∃ p, e = Event.fileParsed p) ∨
       e = Event.cliParsed ∨ (∃ ns, e = Event.missingReported ns) → False) →
      e ∉ mainModel env := by
    intro e hno h
    rw [he] at h
    rcases List.mem_append.mp h with h | h
    · refine hno ?_
      have := phase1_shape env _ (by rw [h1]; exact h)
      tauto
    · rcases List.mem_append.mp h with h | h
      · rcases eq_or_ne cf "" with hq | hq <;> simp [hq] at h
        exact hno (Or.inr (Or.inr (Or.inr (Or.inl ⟨_, h⟩))))
      · simp only [List.mem_cons, List.mem_singleton] at h
        rcases h with h | h | h
        · exact hno (Or.inr (Or.inr (Or.inr (Or.inr (Or.inl h)))))
        · exact hno (Or.inr (Or.inr (Or.inr (Or.inr (Or.inr ⟨_, h⟩)))))
        · simp at h
          exact hno (Or.inr (Or.inr (Or.inl ⟨_, h⟩)))
  refine ⟨he, ?_, ?_, ?_, ?_, ?_⟩
  · intro p hp hmand hnf
    exact mem_missingMandatory _ _ p hp hmand hnf
  · intro s
    exact habs _ (by simp)
  · exact habs _ (by simp)
  · intro d
    exact habs _ (by simp)
  · intro s
    exact habs _ (by simp)

/-- Witness for C3: omitting `--db.path` reports it and exits `-1`; the
mandatory parameter `db.path` is in the reported list. -/
theorem C3_missing_mandatory_witness :
    mainModel envMissing = [Event.statP "./kingdb.conf",
      Event.statP "/etc/kingdb.conf", Event.cliParsed,
      Event.missingReported ["db.path"], Event.exited (-1)] ∧
    "db.path" ∈ missingMandatory (registeredParams envMissing "")
      (parsedNames envMissing "") := by
  have h := C3_missing_mandatory envMissing ""
    [Event.statP "./kingdb.conf", Event.statP "/etc/kingdb.conf"]
    (by decide) (by decide) (by decide) (by decide) (by decide) (by decide)
  constructor
  · rw [h.1]
    decide
  · exact h.2.1 ⟨"db.path", "", true⟩ (by decide) (by decide) (by decide)

/-- Claim C5, counterexample: the claim says each loop iteration sleeps
500 ms **and then** checks the combined stop condition.  In the code the
`while` loop evaluates the condition first and sleeps only when it is
false: on an input whose stop condition is already true at loop entry, a
check happens and Server.Stop runs, but no sleep ever occurs — so no sleep
precedes the first check. -/
theorem C5_counterexample :
    superviseEvents baseEnv "/tmp/db" = [Event.serverStarted "/tmp/db",
      Event.checked true, Event.serverStopped, Event.returned 0] ∧
    Event.checked true ∈ superviseEvents baseEnv "/tmp/db" ∧
    Event.slept 500 ∉ superviseEvents baseEnv "/tmp/db" := by
  decide

/-- Claim C5 (amended): after Server.Start, the main loop checks the
combined stop condition (`stop_requested || server.IsStopRequested()`) and,
while it is false, sleeps a fixed 500 ms and re-checks; when the condition
first holds at check `n` the trace is `n` check-sleep pairs, a final true
check, then exactly one Server.Stop, and the run ends returning success
status 0. -/
theorem C5_supervisor_loop (env : Env) (db : String) (n : Nat)
    (hb : ∀ i, i < n → (env.sigStop i || env.srvStop i) = false)
    (hn : (env.sigStop n || env.srvStop n) = true)
    (hf : n < env.fuel) :
    superviseEvents env db = Event.serverStarted db ::
      (pollSteps n ++ [Event.checked true, Event.serverStopped,
        Event.returned 0]) ∧
    (superviseEvents env db).count Event.serverStopped = 1 ∧
    (superviseEvents env db).getLast? = some (Event.returned 0) := by
  have hp := pollLoop_eq env.sigStop env.srvStop n env.fuel 0
    (by simpa using hb) (by simpa using hn) hf
  have he : superviseEvents env db = Event.serverStarted db ::
      (pollSteps n ++ [Event.checked true, Event.serverStopped,
        Event.returned 0]) := by
    unfold superviseEvents
    rw [hp]
    simp
  refine ⟨he, ?_, ?_⟩
  · rw [he]
    simp [List.count_cons, List.count_append, pollSteps_count_stop]
  · rw [he, show Event.serverStarted db :: (pollSteps n ++
      [Event.checked true, Event.serverStopped, Event.returned 0]) =
      (Event.serverStarted db :: (pollSteps n ++
        [Event.checked true, Event.serverStopped])) ++ [Event.returned 0]
      by simp]
    exact List.getLast?_concat _

/-- Witness for C5: with a stop condition first true at the third check, the
supervisor performs two check-sleep pairs, a true check, one stop, and
returns 0. -/
theorem C5_supervisor_loop_witness :
    superviseEvents envPoll "/tmp/db" = Event.serverStarted "/tmp/db" ::
      (pollSteps 2 ++ [Event.checked true, Event.serverStopped,
        Event.returned 0]) ∧
    (superviseEvents envPoll "/tmp/db").count Event.serverStopped = 1 ∧
    (superviseEvents envPoll "/tmp/db").getLast? =
      some (Event.returned 0) := by
  refine C5_supervisor_loop envPoll "/tmp/db" 2 ?_ (by decide) (by decide)
  intro i hi
  interval_cases i <;> decide

/-- Claim C7: daemonization.  `daemonize` always caches the working
directory first; when the first fork succeeds the original process exits
with success while the child continues; a failure of either fork or of
session creation makes it return a negative value, upon which the bootstrap
prints a daemonization failure and exits `-1` with no retry and no
fallback (no Server.Start); the final `chdir("/")` failure is only logged
and the run proceeds to Server.Start; and none of this runs when the
foreground flag is set. -/
theorem C7_daemonization (env : Env) (st : String → String) :
    ((daemonize env).1.head? = some Event.getcwdCached) ∧
    (env.fork1Fails = false → Event.parentExited ∈ (daemonize env).1) ∧
    ((env.fork1Fails || env.setsidFails || env.fork2Fails) = true →
      (daemonize env).2 < 0) ∧
    ((st "foreground" == "true") = true →
      postDaemonTail env st = superviseEvents env (st "db.path") ∧
      Event.getcwdCached ∉ postDaemonTail env st) ∧
    ((st "foreground" == "true") = false →
      Event.getcwdCached ∈ postDaemonTail env st) ∧
    ((st "foreground" == "true") = false → (daemonize env).2 < 0 →
      postDaemonTail env st = (daemonize env).1 ++
        [Event.stderrMsg "Could not daemonize the process",
         Event.exited (-1)] ∧
      (∀ d, Event.serverStarted d ∉ postDaemonTail env st)) ∧
    ((st "foreground" == "true") = false → env.fork1Fails = false →
      env.setsidFails = false → env.fork2Fails = false →
      env.chdirFails = true →
      Event.stderrMsg "chdir(): failed" ∈ postDaemonTail env st ∧
      Event.serverStarted (st "db.path") ∈ postDaemonTail env st ∧
      (∀ c : Int, Event.exited c ∉ postDaemonTail env st)) := by
  refine ⟨?_, ?_, ?_, ?_, ?_, ?_, ?_⟩
  · unfold daemonize
    split_ifs <;> simp
  · intro h1
    unfold daemonize
    simp only [h1]
    split_ifs <;> simp_all
  · intro h
    by_cases h1 : env.fork1Fails = true
    · simp [daemonize, h1]
    · by_cases h2 : env.setsidFails = true
      · simp [daemonize, eq_false_of_ne_true h1, h2]
      · by_cases h3 : env.fork2Fails = true
        · simp [daemonize, eq_false_of_ne_true h1, eq_false_of_ne_true h2, h3]
        · exfalso
          simp [eq_false_of_ne_true h1, eq_false_of_ne_true h2,
            eq_false_of_ne_true h3] at h
  · intro hf
    have he : postDaemonTail env st = superviseEvents env (st "db.path") := by
      unfold postDaemonTail
      rw [if_pos hf]
    refine ⟨he, ?_⟩
    rw [he]
    intro h
    have := superviseEvents_shape env (st "db.path") _ h
    aesop
  · intro hf
    have he : postDaemonTail env st = (daemonize env).1 ++
        (if (daemonize env).2 < 0 then
          [Event.stderrMsg "Could not daemonize the process",
           Event.exited (-1)]
        else superviseEvents env (st "db.path")) := by
      unfold postDaemonTail
      rw [if_neg (by simp [hf])]
    rw [he]
    refine List.mem_append.mpr (Or.inl ?_)
    unfold daemonize
    split_ifs <;> simp
  · intro hf hd
    have he : postDaemonTail env st = (daemonize env).1 ++
        [Event.stderrMsg "Could not daemonize the process",
         Event.exited (-1)] := by
      unfold postDaemonTail
      rw [if_neg (by simp [hf]), if_pos hd]
    refine ⟨he, ?_⟩
    intro d h
    rw [he] at h
    rcases List.mem_append.mp h with h | h
    · have := daemonize_shape env _ h
      aesop
    · simp at h
  · intro hf h1 h2 h3 hc
    have hde : daemonize env = ([Event.getcwdCached, Event.forked 1,
        Event.parentExited, Event.sessionCreated, Event.forked 2,
        Event.parentExited, Event.umaskSet, Event.chdirRoot,
        Event.stderrMsg "chdir(): failed"], 0) := by
      simp [daemonize, h1, h2, h3, hc]
    have he : postDaemonTail env st = (daemonize env).1 ++
        superviseEvents env (st "db.path") := by
      unfold postDaemonTail
      rw [if_neg (by simp [hf]), if_neg (by simp [hde])]
    refine ⟨?_, ?_, ?_⟩
    · rw [he, hde]
      simp
    · rw [he]
      refine List.mem_append.mpr (Or.inr ?_)
      unfold superviseEvents
      simp
    · intro c h
      rw [he] at h
      rcases List.mem_append.mp h with h | h
      · rw [hde] at h
        simp at h
      · have := superviseEvents_shape env (st "db.path") _ h
        aesop

/-- Witness for C7: a background run whose `chdir("/")` fails logs the
failure and still starts the server; a background run whose first fork
fails prints the daemonization failure and exits `-1`. -/
theorem C7_daemonization_witness :
    Event.stderrMsg "chdir(): failed" ∈
      postDaemonTail envDaemonChdir (resolvedStore envDaemonChdir "") ∧
    Event.serverStarted (resolvedStore envDaemonChdir "" "db.path") ∈
      postDaemonTail envDaemonChdir (resolvedStore envDaemonChdir "") ∧
    postDaemonTail envDaemonFork (resolvedStore envDaemonFork "") =
      (daemonize envDaemonFork).1 ++
      [Event.stderrMsg "Could not daemonize the process",
       Event.exited (-1)] := by
  have h1 := (C7_daemonization envDaemonChdir
    (resolvedStore envDaemonChdir "")).2.2.2.2.2.2 (by decide) (by decide)
    (by decide) (by decide) (by decide)
  have h2 := (C7_daemonization envDaemonFork
    (resolvedStore envDaemonFork "")).2.2.2.2.2.1 (by decide) (by decide)
  exact ⟨h1.1, h1.2.1, h2.1⟩

/-- Claim C8: on every successful path the four signal handlers are
installed exactly once — they form the contiguous block `signalEvents`,
appearing nowhere in the prefix `A` (which ends with the resource-limit
adjustment and contains the log-target configuration that concludes
validation) and nowhere in the daemonization/supervision tail — strictly
after option validation and the resource-limit adjustment and strictly
before any daemonization step (no `getcwd` caching or fork occurs in `A`);
and on every path that reaches validation with some enumerated option
outside its set, no signal handler is ever installed. -/
theorem C8_signal_ordering :
    (∀ (env : Env) (cf : String) (pre : List Event),
      phase1 env = (pre, some cf) →
      helpTriggered env.args = false → genDocTriggered env.args = false →
      unknownNames (registeredParams env cf) (fileSrc env cf) = [] →
      unknownNames (registeredParams env cf) env.cliAssigns = [] →
      missingMandatory (registeredParams env cf) (parsedNames env cf) = [] →
      validEnums (resolvedStore env cf) →
      ∃ A, mainModel env = A ++ signalEvents ++
          postDaemonTail env (resolvedStore env cf) ∧
        (∀ s, Event.signalInstalled s ∉ A) ∧
        (∀ s, Event.signalInstalled s ∉
          postDaemonTail env (resolvedStore env cf)) ∧
        A.getLast? = some Event.limitRaised ∧
        Event.logTargetSet (resolvedStore env cf "log.target") ∈ A ∧
        Event.getcwdCached ∉ A ∧ (∀ k, Event.forked k ∉ A)) ∧
    (∀ (env : Env) (cf : String) (pre : List Event),
      phase1 env = (pre, some cf) →
      helpTriggered env.args = false → genDocTriggered env.args = false →
      unknownNames (registeredParams env cf) (fileSrc env cf) = [] →
      unknownNames (registeredParams env cf) env.cliAssigns = [] →
      missingMandatory (registeredParams env cf) (parsedNames env cf) = [] →
      ¬ validEnums (resolvedStore env cf) →
      ∀ s, Event.signalInstalled s ∉ mainModel env) := by
  constructor
  · intro env cf pre h1 hh hg hfu hcu hm hv
    have hA : ∀ e, e ∈ pre ++ (if cf = "" then []
        else [Event.fileParsed cf]) ++
        (Event.cliParsed ::
          ((if resolvedStore env cf "log.level" = "" then []
            else [Event.logLevelSet (resolvedStore env cf "log.level")]) ++
           [Event.logTargetSet (resolvedStore env cf "log.target"),
            Event.limitRaised])) →
        (∃ p, e = Event.statP p) ∨ (∃ s, e = Event.stderrMsg s) ∨
        (∃ c, e = Event.exited c) ∨ (∃ p, e = Event.fileParsed p) ∨
        e = Event.cliParsed ∨ (∃ s, e = Event.logLevelSet s) ∨
        (∃ s, e = Event.logTargetSet s) ∨ e = Event.limitRaised := by
      intro e he
      rcases List.mem_append.mp he with he | he
      · rcases List.mem_append.mp he with he | he
        · have := phase1_shape env _ (by rw [h1]; exact he)
          tauto
        · rcases eq_or_ne cf "" with hq | hq <;> simp [hq] at he
          exact Or.inr (Or.inr (Or.inr (Or.inl ⟨_, he⟩)))
      · simp only [List.mem_cons] at he
        rcases he with he | he
        · exact Or.inr (Or.inr (Or.inr (Or.inr (Or.inl he))))
        · rcases List.mem_append.mp he with he | he
          · rcases eq_or_ne (resolvedStore env cf "log.level") ""
              with hq | hq <;> simp [hq] at he
            exact Or.inr (Or.inr (Or.inr (Or.inr (Or.inr (Or.inl ⟨_, he⟩)))))
          · simp only [List.mem_cons, List.mem_singleton] at he
            rcases he with he | he
            · exact Or.inr (Or.inr (Or.inr (Or.inr (Or.inr (Or.inr
                (Or.inl ⟨_, he⟩))))))
            · simp at he
              exact Or.inr (Or.inr (Or.inr (Or.inr (Or.inr (Or.inr
                (Or.inr he))))))
    refine ⟨pre ++ (if cf = "" then [] else [Event.fileParsed cf]) ++
      (Event.cliParsed ::
        ((if resolvedStore env cf "log.level" = "" then []
          else [Event.logLevelSet (resolvedStore env cf "log.level")]) ++
         [Event.logTargetSet (resolvedStore env cf "log.target"),
          Event.limitRaised])), ?_, ?_, ?_, ?_, ?_, ?_, ?_⟩
    · rw [mainModel_of_parse env pre cf h1 hh hg,
        parseStage_of_ok env cf hfu hcu hm,
        validationStage_of_valid env _ hv]
      unfold postValidation
      simp
    · intro s hs
      have := hA _ hs
      aesop
    · intro s
      exact signal_not_mem_postDaemonTail env _ s
    · rw [show pre ++ (if cf = "" then [] else [Event.fileParsed cf]) ++
        (Event.cliParsed ::
          ((if resolvedStore env cf "log.level" = "" then []
            else [Event.logLevelSet (resolvedStore env cf "log.level")]) ++
           [Event.logTargetSet (resolvedStore env cf "log.target"),
            Event.limitRaised])) =
        (pre ++ (if cf = "" then [] else [Event.fileParsed cf]) ++
         (Event.cliParsed ::
          ((if resolvedStore env cf "log.level" = "" then []
            else [Event.logLevelSet (resolvedStore env cf "log.level")]) ++
           [Event.logTargetSet (resolvedStore env cf "log.target")]))) ++
        [Event.limitRaised] by simp]
      exact List.getLast?_concat _
    · simp
    · intro hs
      have := hA _ hs
      aesop
    · intro k hk
      have := hA _ hk
      aesop
  · intro env cf pre h1 hh hg hfu hcu hm hnv s hmem
    obtain ⟨pre2, cf2, hph2, hh2, hg2, hv2⟩ := signal_mem_mainModel env s hmem
    rw [h1] at hph2
    injection hph2 with ha hb
    injection hb with hb
    subst hb
    exact hnv hv2

/-- Witness for C8: a valid run installs the four handlers in one block
between the limit adjustment and the daemonization tail, while the
`--storage.compression-algorithm=unknown` run installs none. -/
theorem C8_signal_ordering_witness :
    (∃ A, mainModel envRun = A ++ signalEvents ++
        postDaemonTail envRun (resolvedStore envRun "") ∧
      (∀ s, Event.signalInstalled s ∉ A) ∧
      (∀ s, Event.signalInstalled s ∉
        postDaemonTail envRun (resolvedStore envRun "")) ∧
      A.getLast? = some Event.limitRaised ∧
      Event.logTargetSet (resolvedStore envRun "" "log.target") ∈ A ∧
      Event.getcwdCached ∉ A ∧ (∀ k, Event.forked k ∉ A)) ∧
    (∀ s, Event.signalInstalled s ∉ mainModel envBadCompression) := by
  constructor
  · exact C8_signal_ordering.1 envRun ""
      [Event.statP "./kingdb.conf", Event.statP "/etc/kingdb.conf"]
      (by decide) (by decide) (by decide) (by decide) (by decide) (by decide)
      (by decide)
  · exact C8_signal_ordering.2 envBadCompression ""
      [Event.statP "./kingdb.conf", Event.statP "/etc/kingdb.conf"]
      (by decide) (by decide) (by decide) (by decide) (by decide) (by decide)
      (by decide)

/-- Claim C1, counterexample: an otherwise-valid run whose resolved log
level is the empty string — a value the logging subsystem's parser rejects
— produces no diagnostic and no exit at all: the source guard
`db_options.log_level != ""` skips log-level validation for the empty
value and the run proceeds to success, so not every resolved value outside
the delegated parser's set causes a nonzero exit. -/
theorem C1_counterexample :
    resolvedStore envRun "" "log.level" = "" ∧
    loggerAccepts (resolvedStore envRun "" "log.level") = false ∧
    Event.returned 0 ∈ mainModel envRun ∧
    (∀ c : Int, Event.exited c ∉ mainModel envRun) ∧
    (∀ s, Event.stderrMsg s ∉ mainModel envRun) := by
  have he : mainModel envRun = [Event.statP "./kingdb.conf",
      Event.statP "/etc/kingdb.conf", Event.cliParsed,
      Event.logTargetSet "kingdb", Event.limitRaised,
      Event.signalInstalled "SIGINT", Event.signalInstalled "SIGTERM",
      Event.signalInstalled "SIGSEGV", Event.signalInstalled "SIGABRT",
      Event.serverStarted "/tmp/db", Event.checked true,
      Event.serverStopped, Event.returned 0] := by decide
  refine ⟨by decide, by decide, ?_, ?_, ?_⟩
  · rw [he]
    simp
  · intro c h
    rw [he] at h
    simp at h
  · intro s h
    rw [he] at h
    simp at h

/-- Claim C1 (amended): each of the three enumerated options — compression
algorithm `{disabled, lz4}`, hashing algorithm
`{xxhash-64, murmurhash3-64}`, write-buffer mode `{direct, adaptive}` —
rejects any resolved value outside its set with a diagnostic that contains
both the parameter's name and the offending value and an immediate
`exit(-1)`, with no default substitution; the log level does the same for
every **non-empty** value the logging subsystem's parser rejects (an empty
log level is treated as unset and skips the check); in particular an
otherwise-valid run resolving `storage.compression-algorithm` to `unknown`
emits `Unknown compression algorithm: [unknown]` and ends with
`exit(-1)`. -/
theorem C1_enum_validation :
    (∀ (env : Env) (st : String → String),
      (st "log.level" = "" ∨ loggerAccepts (st "log.level") = true) →
      st "storage.compression-algorithm" ≠ "disabled" →
      st "storage.compression-algorithm" ≠ "lz4" →
      validationStage env st =
        (if st "log.level" = "" then []
         else [Event.logLevelSet (st "log.level")]) ++
        [Event.logTargetSet (st "log.target"),
         Event.stderrMsg ("Unknown compression algorithm: [" ++
           st "storage.compression-algorithm" ++ "]"),
         Event.exited (-1)] ∧
      ("compression algorithm" : String).data <:+:
        ("Unknown compression algorithm: [" ++
          st "storage.compression-algorithm" ++ "]").data ∧
      (st "storage.compression-algorithm").data <:+:
        ("Unknown compression algorithm: [" ++
          st "storage.compression-algorithm" ++ "]").data) ∧
    (∀ (env : Env) (st : String → String),
      (st "log.level" = "" ∨ loggerAccepts (st "log.level") = true) →
      (st "storage.compression-algorithm" = "disabled" ∨
        st "storage.compression-algorithm" = "lz4") →
      st "storage.hashing-algorithm" ≠ "xxhash-64" →
      st "storage.hashing-algorithm" ≠ "murmurhash3-64" →
      validationStage env st =
        (if st "log.level" = "" then []
         else [Event.logLevelSet (st "log.level")]) ++
        [Event.logTargetSet (st "log.target"),
         Event.stderrMsg ("Unknown hashing algorithm: [" ++
           st "storage.hashing-algorithm" ++ "]"),
         Event.exited (-1)] ∧
      ("hashing algorithm" : String).data <:+:
        ("Unknown hashing algorithm: [" ++
          st "storage.hashing-algorithm" ++ "]").data ∧
      (st "storage.hashing-algorithm").data <:+:
        ("Unknown hashing algorithm: [" ++
          st "storage.hashing-algorithm" ++ "]").data) ∧
    (∀ (env : Env) (st : String → String),
      (st "log.level" = "" ∨ loggerAccepts (st "log.level") = true) →
      (st "storage.compression-algorithm" = "disabled" ∨
        st "storage.compression-algorithm" = "lz4") →
      (st "storage.hashing-algorithm" = "xxhash-64" ∨
        st "storage.hashing-algorithm" = "murmurhash3-64") →
      st "db.write-buffer.mode" ≠ "direct" →
      st "db.write-buffer.mode" ≠ "adaptive" →
      validationStage env st =
        (if st "log.level" = "" then []
         else [Event.logLevelSet (st "log.level")]) ++
        [Event.logTargetSet (st "log.target"),
         Event.stderrMsg ("Unknown write buffer mode: [" ++
           st "db.write-buffer.mode" ++ "]"),
         Event.exited (-1)] ∧
      ("write buffer mode" : String).data <:+:
        ("Unknown write buffer mode: [" ++
          st "db.write-buffer.mode" ++ "]").data ∧
      (st "db.write-buffer.mode").data <:+:
        ("Unknown write buffer mode: [" ++
          st "db.write-buffer.mode" ++ "]").data) ∧
    (∀ (env : Env) (st : String → String),
      st "log.level" ≠ "" → loggerAccepts (st "log.level") = false →
      validationStage env st =
        [Event.stderrMsg ("Unknown log level: [" ++ st "log.level" ++ "]"),
         Event.exited (-1)] ∧
      ("log level" : String).data <:+:
        ("Unknown log level: [" ++ st "log.level" ++ "]").data ∧
      (st "log.level").data <:+:
        ("Unknown log level: [" ++ st "log.level" ++ "]").data) ∧
    (∀ (env : Env) (cf : String) (pre : List Event),
      phase1 env = (pre, some cf) →
      helpTriggered env.args = false → genDocTriggered env.args = false →
      unknownNames (registeredParams env cf) (fileSrc env cf) = [] →
      unknownNames (registeredParams env cf) env.cliAssigns = [] →
      missingMandatory (registeredParams env cf) (parsedNames env cf) = [] →
      (resolvedStore env cf "log.level" = "" ∨
        loggerAccepts (resolvedStore env cf "log.level") = true) →
      resolvedStore env cf "storage.compression-algorithm" = "unknown" →
      Event.stderrMsg ("Unknown compression algorithm: [" ++ "unknown" ++
        "]") ∈ mainModel env ∧
      (mainModel env).getLast? = some (Event.exited (-1))) := by
  refine ⟨?_, ?_, ?_, ?_, ?_⟩
  · intro env st hl hc1 hc2
    have hng : ¬(st "log.level" ≠ "" ∧
        loggerAccepts (st "log.level") = false) := by
      rcases hl with h | h <;> simp [h]
    refine ⟨by simp [validationStage, hng, hc1, hc2], ?_, ?_⟩
    · exact List.IsInfix.trans ⟨"Unknown ".data, ": [".data, by decide⟩
        (data_isPre_extend _ _ _).isInfix
    · exact data_infix_sandwich _ _ _
  · intro env st hl hcv hh1 hh2
    have hng : ¬(st "log.level" ≠ "" ∧
        loggerAccepts (st "log.level") = false) := by
      rcases hl with h | h <;> simp [h]
    have hnc : ¬(st "storage.compression-algorithm" ≠ "disabled" ∧
        st "storage.compression-algorithm" ≠ "lz4") := by
      rcases hcv with h | h <;> simp [h]
    refine ⟨by simp [validationStage, hng, hnc, hh1, hh2], ?_, ?_⟩
    · exact List.IsInfix.trans ⟨"Unknown ".data, ": [".data, by decide⟩
        (data_isPre_extend _ _ _).isInfix
    · exact data_infix_sandwich _ _ _
  · intro env st hl hcv hhv hw1 hw2
    have hng : ¬(st "log.level" ≠ "" ∧
        loggerAccepts (st "log.level") = false) := by
      rcases hl with h | h <;> simp [h]
    have hnc : ¬(st "storage.compression-algorithm" ≠ "disabled" ∧
        st "storage.compression-algorithm" ≠ "lz4") := by
      rcases hcv with h | h <;> simp [h]
    have hnh : ¬(st "storage.hashing-algorithm" ≠ "xxhash-64" ∧
        st "storage.hashing-algorithm" ≠ "murmurhash3-64") := by
      rcases hhv with h | h <;> simp [h]
    refine ⟨by simp [validationStage, hng, hnc, hnh, hw1, hw2], ?_, ?_⟩
    · exact List.IsInfix.trans ⟨"Unknown ".data, ": [".data, by decide⟩
        (data_isPre_extend _ _ _).isInfix
    · exact data_infix_sandwich _ _ _
  · intro env st h1 h2
    refine ⟨by simp [validationStage, h1, h2], ?_, ?_⟩
    · exact List.IsInfix.trans ⟨"Unknown ".data, ": [".data, by decide⟩
        (data_isPre_extend _ _ _).isInfix
    · exact data_infix_sandwich _ _ _
  · intro env cf pre h1 hh hg hfu hcu hm hl hcomp
    have hc1 : resolvedStore env cf "storage.compression-algorithm" ≠
        "disabled" := by rw [hcomp]; decide
    have hc2 : resolvedStore env cf "storage.compression-algorithm" ≠
        "lz4" := by rw [hcomp]; decide
    have hng : ¬(resolvedStore env cf "log.level" ≠ "" ∧
        loggerAccepts (resolvedStore env cf "log.level") = false) := by
      rcases hl with h | h <;> simp [h]
    have hval : validationStage env (resolvedStore env cf) =
        (if resolvedStore env cf "log.level" = "" then []
         else [Event.logLevelSet (resolvedStore env cf "log.level")]) ++
        [Event.logTargetSet (resolvedStore env cf "log.target"),
         Event.stderrMsg ("Unknown compression algorithm: [" ++
           resolvedStore env cf "storage.compression-algorithm" ++ "]"),
         Event.exited (-1)] := by
      simp [validationStage, hng, hc1, hc2]
    have he : mainModel env = pre ++
        ((if cf = "" then [] else [Event.fileParsed cf]) ++
         Event.cliParsed :: validationStage env (resolvedStore env cf)) := by
      rw [mainModel_of_parse env pre cf h1 hh hg,
        parseStage_of_ok env cf hfu hcu hm]
    constructor
    · rw [he, hval, hcomp]
      simp
    · rw [he, hval, hcomp]
      rw [show pre ++ ((if cf = "" then [] else [Event.fileParsed cf]) ++
        Event.cliParsed ::
          ((if resolvedStore env cf "log.level" = "" then []
            else [Event.logLevelSet (resolvedStore env cf "log.level")]) ++
           [Event.logTargetSet (resolvedStore env cf "log.target"),
            Event.stderrMsg ("Unknown compression algorithm: [" ++
              "unknown" ++ "]"), Event.exited (-1)])) =
        (pre ++ ((if cf = "" then [] else [Event.fileParsed cf]) ++
          Event.cliParsed ::
          ((if resolvedStore env cf "log.level" = "" then []
            else [Event.logLevelSet (resolvedStore env cf "log.level")]) ++
           [Event.logTargetSet (resolvedStore env cf "log.target"),
            Event.stderrMsg ("Unknown compression algorithm: [" ++
              "unknown" ++ "]")]))) ++ [Event.exited (-1)] by simp]
      exact List.getLast?_concat _

/-- Witness for C1: the `--storage.compression-algorithm=unknown` run emits
the diagnostic carrying `unknown` and ends with `exit(-1)`. -/
theorem C1_enum_validation_witness :
    Event.stderrMsg ("Unknown compression algorithm: [" ++ "unknown" ++
      "]") ∈ mainModel envBadCompression ∧
    (mainModel envBadCompression).getLast? = some (Event.exited (-1)) := by
  exact C1_enum_validation.2.2.2.2 envBadCompression ""
    [Event.statP "./kingdb.conf", Event.statP "/etc/kingdb.conf"]
    (by decide) (by decide) (by decide) (by decide) (by decide) (by decide)
    (Or.inl (by decide)) (by decide)

/-- Claim C9, counterexample: the help banner's three version lines carry
4, 3, and 2 numeric components respectively — the server version prints
`major.minor.revision-build` (`%d.%d.%d-%d`) and the on-disk data-format
version only `major.minor` (`%d.%d`) — so the banner does not consist of
three version triples. -/
theorem C9_counterexample :
    Event.versionBanner [[0, 9, 0, 0], [1, 2, 3], [4, 5]] ∈
      mainModel envHelp ∧
    ¬ (∀ l ∈ [[0, 9, 0, 0], [1, 2, 3], ([4, 5] : List Nat)],
        l.length = 3) := by
  constructor
  · decide
  · decide

/-- Claim C9 (amended): a sole `--help`/`-h` argument prints the version
banner — three version lines: the server version with four components
(major.minor.revision-build), the engine version triple, and the
data-format version pair — and the usage listing, then exits with status 0;
no config file is parsed, no signal handler is installed, and no fork
occurs. -/
theorem C9_help (env : Env) (a : String) (pre : List Event) (cf : String)
    (ha : env.args = [a])
    (hp : (strStarts a "--help" || strStarts a "-h") = true)
    (h1 : phase1 env = (pre, some cf)) :
    mainModel env = pre ++ helpEvents env ∧
    Event.versionBanner [serverVersionComponents,
      engineVersionComponents env, dataFormatVersionComponents env] ∈
      mainModel env ∧
    serverVersionComponents.length = 4 ∧
    (engineVersionComponents env).length = 3 ∧
    (dataFormatVersionComponents env).length = 2 ∧
    Event.helpUsage ∈ mainModel env ∧
    (mainModel env).getLast? = some (Event.exited 0) ∧
    (∀ p, Event.fileParsed p ∉ mainModel env) ∧
    (∀ s, Event.signalInstalled s ∉ mainModel env) ∧
    (∀ k, Event.forked k ∉ mainModel env) := by
  have hht : helpTriggered env.args = true := by
    rw [ha]
    simpa [helpTriggered] using hp
  have he := mainModel_of_help env pre cf h1 hht
  have habs : ∀ e : Event,
      ((∃ p, e = Event.statP p) ∨ (∃ s, e = Event.stderrMsg s) ∨
       (∃ c, e = Event.exited c) ∨ (∃ s, e = Event.stdoutMsg s) ∨
       (∃ vs, e = Event.versionBanner vs) ∨ e = Event.helpUsage → False) →
      e ∉ mainModel env := by
    intro e hno h
    rw [he] at h
    rcases List.mem_append.mp h with h | h
    · refine hno ?_
      have := phase1_shape env _ (by rw [h1]; exact h)
      tauto
    · refine hno ?_
      simp only [helpEvents, List.mem_cons, List.mem_singleton] at h
      rcases h with h | h | h | h | h
      · exact Or.inr (Or.inr (Or.inr (Or.inl ⟨_, h⟩)))
      · exact Or.inr (Or.inr (Or.inr (Or.inr (Or.inl ⟨_, h⟩))))
      · exact Or.inr (Or.inr (Or.inr (Or.inl ⟨_, h⟩)))
      · exact Or.inr (Or.inr (Or.inr (Or.inr (Or.inr h))))
      · simp at h
        exact Or.inr (Or.inr (Or.inl ⟨_, h⟩))
  refine ⟨he, ?_, rfl, rfl, rfl, ?_, ?_, ?_, ?_, ?_⟩
  · rw [he]
    refine List.mem_append.mpr (Or.inr ?_)
    simp [helpEvents]
  · rw [he]
    refine List.mem_append.mpr (Or.inr ?_)
    simp [helpEvents]
  · rw [he, show pre ++ helpEvents env = (pre ++
      [Event.stdoutMsg "KingServer is a persisted key-value database server",
       Event.versionBanner [serverVersionComponents,
         engineVersionComponents env, dataFormatVersionComponents env],
       Event.stdoutMsg "Parameters:", Event.helpUsage]) ++
      [Event.exited 0] by simp [helpEvents]]
    exact List.getLast?_concat _
  · intro p
    exact habs _ (by simp)
  · intro s
    exact habs _ (by simp)
  · intro k
    exact habs _ (by simp)

/-- Witness for C9: the sole-`--help` run is the phase-1 probes followed by
the help events, and it ends with `exit(0)`. -/
theorem C9_help_witness :
    mainModel envHelp = [Event.statP "./kingdb.conf",
      Event.statP "/etc/kingdb.conf"] ++ helpEvents envHelp ∧
    (mainModel envHelp).getLast? = some (Event.exited 0) := by
  have h := C9_help envHelp "--help"
    [Event.statP "./kingdb.conf", Event.statP "/etc/kingdb.conf"] ""
    (by decide) (by decide) (by decide)
  exact ⟨h.1, h.2.2.2.2.2.2.1⟩

/-- Claim C10: the two informational short-circuits fire only on a sole
argument (`argc == 2`) and match by prefix: a sole argument starting with
`--help` or `-h` takes the help path; a sole argument starting with
`--gene` (the first six bytes of `--generate-doc`) and not with `-h` takes
the documentation dump; with any other number of arguments neither
short-circuit fires and the run proceeds to ordinary parsing (no help
usage, no markdown dump in the trace).  The concrete conjuncts exhibit the
prefix (not full-string) matching and the `argc != 2` suppression. -/
theorem C10_short_circuit_matching :
    (∀ (env : Env) (a : String) (pre : List Event) (cf : String),
      env.args = [a] → phase1 env = (pre, some cf) →
      (strStarts a "--help" || strStarts a "-h") = true →
      mainModel env = pre ++ helpEvents env) ∧
    (∀ (env : Env) (a : String) (pre : List Event) (cf : String),
      env.args = [a] → phase1 env = (pre, some cf) →
      (strStarts a "--help" || strStarts a "-h") = false →
      strStarts a "--gene" = true →
      mainModel env = pre ++ genDocEvents) ∧
    (∀ env : Env, env.args.length ≠ 1 →
      Event.helpUsage ∉ mainModel env ∧
      Event.markdownDoc ∉ mainModel env) ∧
    helpTriggered ["--helpme"] = true ∧
    helpTriggered ["-hq"] = true ∧
    genDocTriggered ["--genealogy"] = true ∧
    helpTriggered ["--help", "--db.path=/tmp/db"] = false ∧
    genDocTriggered ["--generate-doc", "--db.path=/tmp/db"] = false := by
  refine ⟨?_, ?_, ?_, by decide, by decide, by decide, by decide, by decide⟩
  · intro env a pre cf ha h1 hp
    refine mainModel_of_help env pre cf h1 ?_
    rw [ha]
    simpa [helpTriggered] using hp
  · intro env a pre cf ha h1 hp hg
    refine mainModel_of_genDoc env pre cf h1 ?_ ?_
    · rw [ha]
      simpa [helpTriggered] using hp
    · rw [ha]
      simp [genDocTriggered, hg]
  · intro env hlen
    constructor
    · intro h
      have hm := helpUsage_mem_mainModel env h
      rw [helpTriggered_false_of_length env.args hlen] at hm
      simp at hm
    · intro h
      have hm := markdownDoc_mem_mainModel env h
      rw [genDocTriggered_false_of_length env.args hlen] at hm
      simp at hm

/-- Witness for C10: a sole `--help` takes the help path, a sole
`--generate-doc` takes the documentation path, and `--help` next to a
second argument produces neither help usage nor a markdown dump. -/
theorem C10_short_circuit_matching_witness :
    mainModel envHelp = [Event.statP "./kingdb.conf",
      Event.statP "/etc/kingdb.conf"] ++ helpEvents envHelp ∧
    mainModel envGenDoc = [Event.statP "./kingdb.conf",
      Event.statP "/etc/kingdb.conf"] ++ genDocEvents ∧
    Event.helpUsage ∉ mainModel envHelpPlus ∧
    Event.markdownDoc ∉ mainModel envHelpPlus := by
  refine ⟨?_, ?_, ?_, ?_⟩
  · exact C10_short_circuit_matching.1 envHelp "--help"
      [Event.statP "./kingdb.conf", Event.statP "/etc/kingdb.conf"] ""
      (by decide) (by decide) (by decide)
  · exact C10_short_circuit_matching.2.1 envGenDoc "--generate-doc"
      [Event.statP "./kingdb.conf", Event.statP "/etc/kingdb.conf"] ""
      (by decide) (by decide) (by decide) (by decide)
  · exact (C10_short_circuit_matching.2.2.1 envHelpPlus (by decide)).1
  · exact (C10_short_circuit_matching.2.2.1 envHelpPlus (by decide)).2
